import Mathlib

/-!
Verification of the gree_versati device communication engine.

This file is a shallow embedding, in Lean, of the parts of the
repository that the verified properties talk about:

* src/gree_versati/base_device.py  (property map, dirty set, bind, equality)
* src/gree_versati/device.py       (push_state_update, target_temperature)
* src/gree_versati/awhp_device.py  (update_state batching, handle_state_update)
* src/gree_versati/cipher.py       (CipherV1 / CipherV2 framing)
* src/gree_versati/network.py      (send, packet_received dispatch)

Python dictionaries are embedded as insertion-ordered association lists
with unique keys (pyDictInsert replaces in place or appends, exactly as
CPython dict assignment does).  Python None is the value PyVal.vnull.
External libraries (PyCryptodome AES primitives, json.dumps/loads,
base64) are parameters of the definitions that use them, constrained by
the contracts those libraries document; everything the repository itself
computes (padding, truncation, batching, dirty tracking, dispatch) is
embedded concretely.
-/

/-- Values stored in the device Property Map.  The repository writes
integers and strings (setters coerce with int()); Python None is vnull. -/
inductive PyVal
  | vnull
  | vint (n : Int)
  | vstr (s : String)
deriving DecidableEq, Repr

/-- Python dict single-key assignment d[k] = v: replaces the value in
place when the key exists, otherwise appends (insertion order). -/
def pyDictInsert (d : List (String × PyVal)) (k : String) (v : PyVal) :
    List (String × PyVal) :=
  match d with
  | [] => [(k, v)]
  | (k0, v0) :: rest =>
    if k0 = k then (k0, v) :: rest else (k0, v0) :: pyDictInsert rest k v

/-- Python dict.update(other): sequential assignment of every pair. -/
def pyDictUpdate (d : List (String × PyVal)) (kvs : List (String × PyVal)) :
    List (String × PyVal) :=
  kvs.foldl (fun acc p => pyDictInsert acc p.1 p.2) d

/-- Python d.get(k) with default None: lookup, absent key gives None. -/
def pyDictGet (d : List (String × PyVal)) (k : String) : PyVal :=
  (d.lookup k).getD .vnull

/-- Python dict equality: same key set and same value at every key
(insertion order is ignored by ==). -/
def pyDictEq (a b : List (String × PyVal)) : Bool :=
  a.all (fun p => b.lookup p.1 = some p.2) &&
  b.all (fun p => a.lookup p.1 = some p.2)

/-- Modelled from the spec: class DeviceInfo (the file
src/gree_versati/deviceinfo.py is imported by base_device.py but is not
among the provided sources).  Spec section 3: "identity of a physical
unit - IP address, port, MAC/identifier, optional human name...
Immutable once discovered; equality is by MAC+IP". -/
structure DeviceInfoM where
  ip : String
  port : Int
  mac : String
  name : Option String
deriving DecidableEq, Repr

/-- Modelled from the spec: DeviceInfo equality is by MAC+IP. -/
def deviceInfoEq (a b : DeviceInfoM) : Bool :=
  a.mac = b.mac && a.ip = b.ip

/-- Python == on two Optional[DeviceInfo] values (None == None is True,
None never equals a DeviceInfo). -/
def optInfoEq (a b : Option DeviceInfoM) : Bool :=
  match a, b with
  | none, none => true
  | some x, some y => deviceInfoEq x y
  | _, _ => false

/-- The mutable state of a BaseDevice / Device / AwhpDevice handle
(base_device.py __init__ plus the protocol fields of network.py that the
claims mention): the Property Map (_properties), the Dirty Set (_dirty,
an ordered list), the firmware identity (hid, version), the bind-ready
gate (_ready) and the installed session cipher key (device_cipher,
none when unbound), and the DeviceInfo reference. -/
structure DevState where
  properties : List (String × PyVal)
  dirty : List String
  hid : Option PyVal
  version : Option String
  ready : Bool
  cipherKey : Option PyVal
  deviceInfo : Option DeviceInfoM
deriving DecidableEq, Repr

/-- BaseDevice.get_property: pure lookup by wire key, returning None
when the map is empty or the key was never populated.  The function
reads state and returns the unchanged state with the value, mirroring
that the Python body contains no assignment. -/
def get_property (s : DevState) (key : String) : DevState × Option PyVal :=
  (s, if s.properties.isEmpty then none else s.properties.lookup key)

/-- BaseDevice.set_property: no-op when the current value (None when
absent) already equals the new value; otherwise write the Property Map
and append the wire key to the Dirty Set when not already present. -/
def set_property (s : DevState) (key : String) (v : PyVal) : DevState :=
  if pyDictGet s.properties key = v then s
  else
    { s with
      properties := pyDictInsert s.properties key v
      dirty := if key ∈ s.dirty then s.dirty else s.dirty ++ [key] }

/-- Outcome of the transport send awaited inside push/update calls:
either the drain/response wait resolves or asyncio.TimeoutError. -/
inductive SendSim
  | ok
  | timeout
deriving DecidableEq, Repr

/-- The typed errors of exceptions.py that the embedded operations
surface (DeviceNotBoundError, DeviceTimeoutError). -/
inductive DevError
  | notBound
  | deviceTimeout
deriving DecidableEq, Repr

/-- The payload loop of Device.push_state_update (device.py lines
393-403): snapshot the current Property Map value of every dirty key
into the command dict, and whenever the key is the temperature setpoint
SetTem also carry the companions TemRec and TemUn with their current
Property Map values. -/
def pushPayloadStep (props : List (String × PyVal))
    (acc : List (String × PyVal)) (name : String) : List (String × PyVal) :=
  let acc1 := pyDictInsert acc name (pyDictGet props name)
  if name = "SetTem" then
    pyDictInsert
      (pyDictInsert acc1 "TemRec" (pyDictGet props "TemRec"))
      "TemUn" (pyDictGet props "TemUn")
  else acc1

/-- See pushPayloadStep: the dirty keys are snapshotted in order. -/
def buildPushPayload (dirty : List String) (props : List (String × PyVal)) :
    List (String × PyVal) :=
  dirty.foldl (pushPayloadStep props) []

/-- Device.push_state_update (device.py lines 378-412).  Empty Dirty Set
returns before any I/O.  When unbound the call first awaits bind, whose
outcome is the bindR argument (bind itself is modelled separately; on
success it installs a session key).  The payload is snapshotted from the
dirty keys, the Dirty Set is cleared BEFORE the send, the missing
device_info case raises DeviceNotBoundError, and a send timeout is
translated to DeviceTimeoutError.  The result carries the payload that
was sent (none when the push was skipped). -/
def push_state_update (s : DevState) (bindR : Except DevError PyVal)
    (sendR : SendSim) : DevState × Except DevError (Option (List (String × PyVal))) :=
  if s.dirty.isEmpty then (s, .ok none)
  else
    match s.cipherKey with
    | some _ => pushAfterBind s sendR
    | none =>
      match bindR with
      | .error e => (s, .error e)
      | .ok k => pushAfterBind { s with cipherKey := some k } sendR
where
  /-- body after the bind guard: build payload, clear dirty, send -/
  pushAfterBind (s1 : DevState) (sendR : SendSim) :
      DevState × Except DevError (Option (List (String × PyVal))) :=
    let payload := buildPushPayload s1.dirty s1.properties
    let s2 := { s1 with dirty := [] }
    if s1.deviceInfo.isNone then (s2, .error .notBound)
    else
      match sendR with
      | .timeout => (s2, .error .deviceTimeout)
      | .ok => (s2, .ok (some payload))

/-- The version pattern of awhp_device.py line 432: re.search of
(?<=V)([\d.]+)\.bin$ on the hid string.  The anchored suffix ".bin"
must close the string, the group is the maximal run of digits and dots
immediately before it, and that run must be non-empty and preceded by
the letter V; leftmost search makes the maximal run the captured one. -/
def extractVersion (s : String) : Option String :=
  let rev := s.toList.reverse
  if rev.take 4 = ['n', 'i', 'b', '.'] then
    let core := rev.drop 4
    let run := core.takeWhile (fun c => c.isDigit || c = '.')
    if run.isEmpty then none
    else
      match (core.drop run.length).head? with
      | some 'V' => some (String.mk run.reverse)
      | _ => none
  else none

/-- Python truthiness of an optional hid value (if not self.hid). -/
def pyTruthy : Option PyVal → Bool
  | none => false
  | some .vnull => false
  | some (.vint n) => n ≠ 0
  | some (.vstr s) => ¬ s.isEmpty

/-- AwhpDevice.handle_state_update (awhp_device.py lines 425-458): pop
hid out of the inbound fields when present, record it and re-derive the
version string from the pattern (the version is left unchanged when the
pattern does not match; a non-string hid is matched against the empty
string via the "or" fallback only for None - the claims never exercise a
non-string hid), then merge the remaining fields into the Property Map
with values always overwriting.  The Dirty Set is untouched. -/
def handle_state_update (s : DevState) (kwargs : List (String × PyVal)) :
    DevState :=
  match kwargs.lookup "hid" with
  | some hv =>
    let rest := kwargs.filter (fun p => p.1 ≠ "hid")
    let vsn :=
      match hv with
      | .vstr h =>
        match extractVersion h with
        | some m => some m
        | none => s.version
      | _ => s.version
    { s with
      hid := some hv
      version := vsn
      properties := pyDictUpdate s.properties rest }
  | none => { s with properties := pyDictUpdate s.properties kwargs }

/-! ## Binding state machine (base_device.py BaseDevice.bind) -/

/-- The two cipher variants of cipher.py. -/
inductive CipherKind
  | v1
  | v2
deriving DecidableEq, Repr

/-- Result of one bind attempt (__bind_internal): the ready gate fires
with the device-supplied key within bind_timeout, or asyncio raises
TimeoutError. -/
inductive AttemptResult
  | ok (key : String)
  | timeout
deriving DecidableEq, Repr

/-- Errors surfaced by bind: ValueError (key without cipher),
DeviceNotBoundError, DeviceTimeoutError. -/
inductive BindError
  | valueErrorKeyNeedsCipher
  | notBound
  | deviceTimeout
deriving DecidableEq, Repr

/-- BaseDevice.bind (base_device.py lines 56-128).  The attempt argument
is the environment: what one __bind_internal trial of a given cipher
observes.  The result pairs the ordered trace of ciphers actually tried
with the outcome.  Direct key install needs a cipher and does no I/O.
Negotiation needs device_info.  With a cipher supplied only it is tried;
with none, CipherV1 is tried and on its TimeoutError CipherV2 is tried;
any timeout escaping that block is re-raised as DeviceTimeoutError. -/
def BaseDevice.bind (hasDeviceInfo : Bool) (keyArg : Option String)
    (cipherArg : Option CipherKind) (attempt : CipherKind → AttemptResult) :
    List CipherKind × Except BindError (CipherKind × String) :=
  match keyArg with
  | some k =>
    match cipherArg with
    | none => ([], .error .valueErrorKeyNeedsCipher)
    | some c => ([], .ok (c, k))
  | none =>
    if ¬ hasDeviceInfo then ([], .error .notBound)
    else
      match cipherArg with
      | some c =>
        match attempt c with
        | .ok k => ([c], .ok (c, k))
        | .timeout => ([c], .error .deviceTimeout)
      | none =>
        match attempt .v1 with
        | .ok k => ([.v1], .ok (.v1, k))
        | .timeout =>
          match attempt .v2 with
          | .ok k => ([.v1, .v2], .ok (.v2, k))
          | .timeout => ([.v1, .v2], .error .deviceTimeout)

/-! ## update_state batching (awhp_device.py AwhpDevice.update_state) -/

/-- Recursion worker for chunkList; the fuel argument (instantiated
with the list length, an upper bound on the number of batches) only
makes the recursion structural and is never exhausted on the actual
calls. -/
def chunkGo {α : Type} (n : Nat) : List α → Nat → List (List α)
  | [], _ => []
  | _ :: _, 0 => []
  | a :: l, fuel + 1 => (a :: l).take n :: chunkGo n ((a :: l).drop n) fuel

/-- The Python batch comprehension
[all_props[i : i + batch_size] for i in range(0, len(all_props), batch_size)]:
successive slices of size n (the final one may be shorter). -/
def chunkList {α : Type} (n : Nat) (l : List α) : List (List α) :=
  if n = 0 then [] else chunkGo n l l.length

/-- The wire keys of AwhpProps (awhp_device.py lines 10-59), in
declaration order, as collected by [prop.value for prop in AwhpProps]. -/
def awhpPropsList : List String :=
  ["AllInWatTemHi", "AllInWatTemLo", "AllOutWatTemHi", "AllOutWatTemLo",
   "HepOutWatTemHi", "HepOutWatTemLo", "WatBoxTemHi", "WatBoxTemLo",
   "RmoHomTemHi", "RmoHomTemLo", "WatBoxElcHeRunSta", "SyAnFroRunSta",
   "ElcHe1RunSta", "ElcHe2RunSta", "AnFrzzRunSta",
   "Pow", "Mod", "CoWatOutTemSet", "HeWatOutTemSet", "WatBoxTemSet",
   "TemUn", "TemRec", "AllErr",
   "ColHtWter", "HetHtWter", "TemRecB", "CoHomTemSet", "HeHomTemSet",
   "FastHtWter", "Quiet", "LefHom", "SwDisFct",
   "SvSt", "VersatiSeries", "RomHomTemExt", "WatBoxExt", "FocModSwh",
   "Emegcy", "HanFroSwh", "WatSyExhSwh", "BordTest", "ColColetSwh",
   "EndTemCotSwh", "ModelType", "EVU"]

/-- AwhpDevice.update_state property list (lines 384-387): every known
wire key, plus "hid" appended when the firmware id is not yet known
(if not self.hid). -/
def updateStateProps (hid : Option PyVal) : List String :=
  awhpPropsList ++ (if pyTruthy hid then [] else ["hid"])

/-- AwhpDevice.update_state request sequence (lines 389-410): the
property list split into batches of 23, one status request per batch,
issued in list order with each send awaited before the next. -/
def updateStateBatches (hid : Option PyVal) : List (List String) :=
  chunkList 23 (updateStateProps hid)

/-! ## Cipher framing (cipher.py)

The AES block operations, the GCM mode, base64 and json.dumps/loads are
external libraries (PyCryptodome, stdlib); they enter as function
parameters.  Everything cipher.py itself does - the V1 byte-value
padding, the json round through the cipher, the defensive truncation
after the last closing brace, Python str.replace - is embedded
concretely.  Strings and byte strings are both List Char (json.dumps
with its default ensure_ascii=True emits pure ASCII, so the UTF-8
encode/decode steps are the identity embedding). -/

/-- The closing brace character (written by code point). -/
def braceChar : Char := Char.ofNat 125

/-- CipherV1.__pad (cipher.py line 41): byte-value padding, pad length
16 - len % 16, each pad byte set to that length. -/
def padV1 (s : List Char) : List Char :=
  s ++ List.replicate (16 - s.length % 16) (Char.ofNat (16 - s.length % 16))

/-- Python s[s.rindex(c) + 1 :]: the substring strictly after the last
occurrence of c (meaningful when c occurs in l). -/
def afterLast (c : Char) (l : List Char) : List Char :=
  (l.reverse.takeWhile (fun a => a ≠ c)).reverse

/-- Recursion worker for pyRemove; the fuel argument (instantiated with
the input length, an upper bound on the number of scan steps) only
makes the recursion structural and is never exhausted on the actual
calls. -/
def pyRemoveGo (pat : List Char) : List Char → Nat → List Char
  | [], _ => []
  | c :: rest, 0 => c :: rest
  | c :: rest, fuel + 1 =>
    if pat.isEmpty then c :: pyRemoveGo pat rest fuel
    else if pat.isPrefixOf (c :: rest) then
      pyRemoveGo pat ((c :: rest).drop pat.length) fuel
    else c :: pyRemoveGo pat rest fuel

/-- Python s.replace(pat, \"\") : removes every non-overlapping
occurrence of pat, scanning left to right (replacing an empty pattern
by the empty string returns the string unchanged). -/
def pyRemove (pat l : List Char) : List Char :=
  pyRemoveGo pat l l.length

/-- The shared defensive parse of CipherV1.decrypt and CipherV2.decrypt
(cipher.py lines 58 and 91):
t = decrypted.replace(decrypted[decrypted.rindex(\"}\") + 1 :], \"\"),
then json.loads(t).  rindex raises ValueError when no brace occurs
(modelled as none). -/
def truncateAndLoad {α : Type} (loads : List Char → Option α)
    (decrypted : List Char) : Option α :=
  if braceChar ∈ decrypted then
    loads (pyRemove (afterLast braceChar decrypted) decrypted)
  else none

/-- CipherV1.encrypt (cipher.py lines 44-51): json.dumps, pad, AES-ECB
encrypt, base64 encode; the tag component is always None. -/
def cipherV1Encrypt {α : Type} (aesE : List Char → List Char)
    (b64e : List Char → List Char) (dumps : α → List Char) (x : α) :
    List Char × Option (List Char) :=
  (b64e (aesE (padV1 (dumps x))), none)

/-- CipherV1.decrypt (cipher.py lines 53-60): base64 decode, AES-ECB
decrypt, truncate after the last brace, json.loads. -/
def cipherV1Decrypt {α : Type} (aesD : List Char → List Char)
    (b64d : List Char → List Char) (loads : List Char → Option α)
    (data : List Char) : Option α :=
  truncateAndLoad loads (aesD (b64d data))

/-- CipherV2.encrypt (cipher.py lines 75-84): json.dumps, AES-GCM
encrypt_and_digest (fixed nonce and AAD are part of the gcmE
environment), base64 encode of both ciphertext and tag; the tag
component is always a (non-None) string. -/
def cipherV2Encrypt {α : Type} (gcmE : List Char → List Char × List Char)
    (b64e : List Char → List Char) (dumps : α → List Char) (x : α) :
    List Char × Option (List Char) :=
  (b64e (gcmE (dumps x)).1, some (b64e (gcmE (dumps x)).2))

/-- CipherV2.decrypt (cipher.py lines 86-93): base64 decode, AES-GCM
decrypt (the tag is not verified by the source), truncate after the
last brace, json.loads. -/
def cipherV2Decrypt {α : Type} (gcmD : List Char → List Char)
    (b64d : List Char → List Char) (loads : List Char → Option α)
    (data : List Char) : Option α :=
  truncateAndLoad loads (gcmD (b64d data))

/-- Dispatch of CipherBase.encrypt over the installed variant. -/
def cipherEncrypt {α : Type} (aesE : List Char → List Char)
    (gcmE : List Char → List Char × List Char)
    (b64e : List Char → List Char) (dumps : α → List Char)
    (k : CipherKind) (x : α) : List Char × Option (List Char) :=
  match k with
  | .v1 => cipherV1Encrypt aesE b64e dumps x
  | .v2 => cipherV2Encrypt gcmE b64e dumps x

/-! ## send (network.py DeviceProtocolBase2.send, lines 179-214) -/

/-- The fields of the outbound envelope that send inspects: the i
key-selector flag and the optional pack payload. -/
structure Envelope (α : Type) where
  i : Int
  pack : Option α

/-- What send leaves on the wire for the pack and tag fields: the pack
replaced by ciphertext, and the sibling tag attached only when the tag
component is truthy (non-None and non-empty). -/
structure SentMessage where
  packCt : Option (List Char)
  tag : Option (List Char)
deriving DecidableEq, Repr

/-- ValueError cases of send. -/
inductive SendError
  | bindNeedsCipher
  | noCipherInstalled
deriving DecidableEq, Repr

/-- Python truthiness of the optional tag string (if tag:). -/
def pyTruthyStr : Option (List Char) → Bool
  | none => false
  | some [] => false
  | some (_ :: _) => true

/-- Which cipher encrypts the pack: an i == 1 key-exchange message
requires and installs the supplied bootstrap cipher (a missing one is a
ValueError), otherwise the already installed cipher (none installed is
a ValueError). -/
def sendActiveCipher (i : Int) (installed bootstrap : Option CipherKind) :
    Except SendError CipherKind :=
  if i = 1 then
    match bootstrap with
    | none => .error .bindNeedsCipher
    | some c => .ok c
  else
    match installed with
    | none => .error .noCipherInstalled
    | some c => .ok c

/-- DeviceProtocolBase2.send encryption framing: when a pack payload is
present the active cipher (sendActiveCipher) encrypts it; the pack is
replaced by the ciphertext and the tag is attached as a sibling field
only when truthy.  The await-drain suspension is outside this model.
The result also reports the cipher installed after the call. -/
def sendFrame {α : Type} (aesE : List Char → List Char)
    (gcmE : List Char → List Char × List Char)
    (b64e : List Char → List Char) (dumps : α → List Char)
    (env : Envelope α) (installed : Option CipherKind)
    (bootstrap : Option CipherKind) :
    Except SendError (SentMessage × Option CipherKind) :=
  match env.pack with
  | none => .ok ({ packCt := none, tag := none }, installed)
  | some body =>
    match sendActiveCipher env.i installed bootstrap with
    | .error e => .error e
    | .ok c =>
      let (ct, tag) := cipherEncrypt aesE gcmE b64e dumps c body
      .ok ({ packCt := some ct
             tag := if pyTruthyStr tag then tag else none }, some c)

/-! ## Inbound dispatch (network.py DeviceProtocol2.packet_received) -/

/-- The decoded pack of an inbound envelope as packet_received sees it:
either still a string (decryption failed or no cipher, datagram_received
passes the encrypted text through), or a JSON object with the fields the
three extraction strategies read (a missing field is an absent key). -/
structure PackObj where
  t : Option PyVal
  key : Option PyVal
  cols : Option (List String)
  dat : Option (List PyVal)
  opt : Option (List String)
  val : Option (List PyVal)
deriving DecidableEq, Repr

/-- The pack slot of an inbound packet object. -/
inductive Pack
  | encStr (s : String)
  | pobj (o : PackObj)
deriving DecidableEq, Repr

/-- An inbound packet object (the envelope after json decode; only the
pack field drives dispatch). -/
structure Packet where
  pack : Option Pack
deriving DecidableEq, Repr

/-- How packet_received concluded for a packet. -/
inductive PacketOutcome
  | bound
  | stateUpdated
  | unknown
  | errorCaught
deriving DecidableEq, Repr

/-- dict(zip(cols, dat)): zip truncates at the shorter list, duplicate
keys keep the later value. -/
def pyZipDict (ks : List String) (vs : List PyVal) : List (String × PyVal) :=
  pyDictUpdate [] (ks.zip vs)

/-- DeviceProtocol2.__handle_device_bound composed with
BaseDevice.handle_device_bound: signal the ready gate, then install the
device-supplied key into the trial cipher when one is present. -/
def handleDeviceBound (s : DevState) (k : PyVal) : DevState :=
  { s with
    ready := true
    cipherKey := match s.cipherKey with
      | some _ => some k
      | none => none }

/-- DeviceProtocol2.packet_received (network.py lines 269-311) with the
AwhpDevice state-update handler.  resp is obj.get(\"pack\", {}).get(\"t\"):
a missing pack gives None, a string pack raises AttributeError (caught
and logged).  bindok extracts pack[\"key\"], dat zips cols/dat, res zips
opt/val; a missing field raises KeyError (caught and logged).  Any resp
outside the three known ones routes to handle_unknown_packet, which
only logs.  The function is total: no exception leaves it. -/
def packet_received (s : DevState) (p : Packet) : DevState × PacketOutcome :=
  match p.pack with
  | none => (s, .unknown)
  | some (.encStr _) => (s, .errorCaught)
  | some (.pobj o) =>
    match o.t with
    | some (.vstr "bindok") =>
      match o.key with
      | none => (s, .errorCaught)
      | some k => (handleDeviceBound s k, .bound)
    | some (.vstr "dat") =>
      match o.cols, o.dat with
      | some cols, some dat =>
        (handle_state_update s (pyZipDict cols dat), .stateUpdated)
      | _, _ => (s, .errorCaught)
    | some (.vstr "res") =>
      match o.opt, o.val with
      | some ks, some vs =>
        (handle_state_update s (pyZipDict ks vs), .stateUpdated)
      | _, _ => (s, .errorCaught)
    | _ => (s, .unknown)

/-- The packets claim C7 quantifies over: pack.t unknown (or the pack
missing or still an undecrypted string) or a known t whose required
companion fields are missing. -/
def unknownOrMalformed (p : Packet) : Bool :=
  match p.pack with
  | none => true
  | some (.encStr _) => true
  | some (.pobj o) =>
    match o.t with
    | some (.vstr "bindok") => o.key = none
    | some (.vstr "dat") => o.cols = none || o.dat = none
    | some (.vstr "res") => o.opt = none || o.val = none
    | _ => true

/-! ## Handle equality (base_device.py BaseDevice.__eq__, lines 148-187) -/

/-- BaseDevice.__eq__: different DeviceInfo, different bound state, or
(both bound) different keys mean not equal; a handle with pending dirty
properties is equal to nothing; otherwise the Property Maps decide. -/
def device_eq (a b : DevState) : Bool :=
  if ¬ optInfoEq a.deviceInfo b.deviceInfo then false
  else if a.cipherKey.isSome ≠ b.cipherKey.isSome then false
  else if a.cipherKey.isSome && b.cipherKey.isSome
          && a.cipherKey ≠ b.cipherKey then false
  else if ¬ a.dirty.isEmpty then false
  else if ¬ b.dirty.isEmpty then false
  else pyDictEq a.properties b.properties

/-! ## Fahrenheit setpoint (device.py target_temperature setter) -/

/-- Python round(): round half to even on the exact value. -/
def pyRound (q : ℚ) : Int :=
  let f : Int := ⌊q⌋
  let r : ℚ := q - f
  if r < 1 / 2 then f
  else if 1 / 2 < r then f + 1
  else if f % 2 = 0 then f else f + 1

/-- device.py generate_temperature_record (lines 100-103), the float
arithmetic taken exactly over the rationals: temSet is the rounded
Celsius value, temRec flags a positive fractional remainder. -/
def generate_temperature_record (tempF : Int) : Int × Int :=
  let c : ℚ := ((tempF : ℚ) - 32) * 5 / 9
  let temSet := pyRound c
  (temSet, if 0 < c - temSet then 1 else 0)

/-- Device.target_temperature setter (device.py lines 161-174): in
Fahrenheit mode (TemUn == 1) the record computes SetTem and TemRec and
both are written through set_property; in Celsius mode only SetTem is
written.  Values outside [TEMP_MIN, TEMP_MAX] raise ValueError (none). -/
def setTargetTemperature (s : DevState) (value : Int) : Option DevState :=
  if pyDictGet s.properties "TemUn" = .vint 1 then
    let (temSet, temRec) := generate_temperature_record value
    if temSet > 30 ∨ temSet < 8 then none
    else some (set_property (set_property s "SetTem" (.vint temSet))
                 "TemRec" (.vint temRec))
  else
    if value > 30 ∨ value < 8 then none
    else some (set_property s "SetTem" (.vint value))

/-- The Dirty Set invariant of claim C9: every dirty key is a key of the
Property Map, and the Dirty Set holds no duplicates. -/
def DirtyInv (s : DevState) : Prop :=
  (∀ k ∈ s.dirty, (s.properties.lookup k).isSome) ∧ s.dirty.Nodup

/-! ## Concrete fixtures used by individual witnesses -/

/-- A bound handle with one pending power change (C1 scenarios). -/
def c1State : DevState :=
  { properties := [("Pow", .vint 1)]
    dirty := ["Pow"]
    hid := none
    version := none
    ready := false
    cipherKey := some (.vstr "Jf8Uw2Qp5Xc9Rd3T")
    deviceInfo := some { ip := "192.168.1.2", port := 7000,
                         mac := "f4911e7aca59", name := none } }

/-- A trivial serializer for the round-trip witness: every value of the
index type serializes to the two-character object text. -/
def c2Dumps : Nat → List Char := fun _ => [Char.ofNat 123, Char.ofNat 125]

/-- A parser matching c2Dumps on its single output. -/
def c2Loads : List Char → Option Nat :=
  fun s => if s = [Char.ofNat 123, Char.ofNat 125] then some 7 else none

/-- A GCM stand-in whose ciphertext is the plaintext (inverse given by
the identity) for round-trip witnesses. -/
def c2Gcm : List Char → List Char × List Char := fun s => (s, [])

/-- An environment in which every bind attempt times out (C3). -/
def c3AttemptTimeout : CipherKind → AttemptResult := fun _ => .timeout

/-- A bound handle holding a power value (C6). -/
def c6State : DevState :=
  { properties := [("Pow", .vint 1), ("Mod", .vint 4)]
    dirty := []
    hid := none
    version := none
    ready := false
    cipherKey := some (.vstr "Ab1Cd2Ef3Gh4Ij5K")
    deviceInfo := some { ip := "192.168.1.3", port := 7000,
                         mac := "f4911e7aca60", name := none } }

/-- An idle handle observing inbound packets (C7). -/
def c7State : DevState :=
  { properties := [("Pow", .vint 0)]
    dirty := []
    hid := none
    version := none
    ready := false
    cipherKey := some (.vstr "Lm6Pq7Rs8Tu9Vw0X")
    deviceInfo := some { ip := "192.168.1.4", port := 7000,
                         mac := "f4911e7aca61", name := none } }

/-- The inbound datagram of the C7 scenario: pack present, type
unknown. -/
def c7Packet : Packet :=
  { pack := some (.pobj
      { t := some (.vstr "unknown")
        key := none
        cols := none
        dat := none
        opt := none
        val := none }) }

/-- A clean bound handle (C8). -/
def c8State : DevState :=
  { properties := [("Pow", .vint 1)]
    dirty := []
    hid := none
    version := none
    ready := true
    cipherKey := some (.vstr "Yz1Ab2Cd3Ef4Gh5I")
    deviceInfo := some { ip := "192.168.1.5", port := 7000,
                         mac := "f4911e7aca62", name := some "unit" } }

/-- A handle with one clean and one dirty key satisfying the Dirty Set
invariant (C9). -/
def c9State : DevState :=
  { properties := [("Pow", .vint 1), ("Mod", .vint 4)]
    dirty := ["Mod"]
    hid := none
    version := none
    ready := false
    cipherKey := some (.vstr "Jk6Lm7No8Pq9Rs0T")
    deviceInfo := some { ip := "192.168.1.6", port := 7000,
                         mac := "f4911e7aca63", name := none } }

/-- A Fahrenheit-mode handle before the setpoint write (C5). -/
def c5State0 : DevState :=
  { properties := [("TemUn", .vint 1)]
    dirty := []
    hid := none
    version := none
    ready := false
    cipherKey := some (.vstr "Uv1Wx2Yz3Ab4Cd5E")
    deviceInfo := some { ip := "192.168.1.7", port := 7000,
                         mac := "f4911e7aca64", name := none } }

/-- The same handle after target_temperature is set to 75 F: the record
gives SetTem 24 and TemRec 0 and both become dirty (C5). -/
def c5State1 : DevState :=
  { properties := [("TemUn", .vint 1), ("SetTem", .vint 24), ("TemRec", .vint 0)]
    dirty := ["SetTem", "TemRec"]
    hid := none
    version := none
    ready := false
    cipherKey := some (.vstr "Uv1Wx2Yz3Ab4Cd5E")
    deviceInfo := some { ip := "192.168.1.7", port := 7000,
                         mac := "f4911e7aca64", name := none } }

/-- A GCM stand-in with a non-empty one-byte digest (C10). -/
def c10Gcm : List Char → List Char × List Char := fun s => (s, ['g'])

/-- An outbound session-class envelope carrying a pack payload (C10). -/
def c10Env : Envelope Nat := { i := 0, pack := some 5 }

/-! # Theorems -/

/-! ## Dictionary helper lemmas -/

theorem lookup_pyDictInsert (d : List (String × PyVal)) (k k' : String)
    (v : PyVal) :
    (pyDictInsert d k v).lookup k' = if k' = k then some v else d.lookup k' := by
  induction d with
  | nil =>
    simp only [pyDictInsert, List.lookup]
    split <;> simp_all
  | cons p rest ih =>
    obtain ⟨k0, v0⟩ := p
    simp only [pyDictInsert]
    by_cases h : k0 = k
    · subst h
      simp only [if_pos rfl, List.lookup]
      split <;> simp_all
    · simp only [if_neg h, List.lookup]
      by_cases h2 : k' = k0
      · subst h2
        simp_all
      · have hb : (k' == k0) = false := by simp [h2]
        simp [hb, ih]

theorem lookup_isSome_pyDictInsert (d : List (String × PyVal))
    (k k' : String) (v : PyVal) (h : (d.lookup k').isSome) :
    ((pyDictInsert d k v).lookup k').isSome := by
  rw [lookup_pyDictInsert]
  split <;> simp_all

theorem lookup_isSome_pyDictUpdate (kvs d : List (String × PyVal))
    (k' : String) (h : (d.lookup k').isSome) :
    ((pyDictUpdate d kvs).lookup k').isSome := by
  induction kvs generalizing d with
  | nil => simpa [pyDictUpdate] using h
  | cons p rest ih =>
    simp only [pyDictUpdate, List.foldl_cons]
    exact ih (pyDictInsert d p.1 p.2) (lookup_isSome_pyDictInsert d p.1 k' p.2 h)

/-! ## C6: set/get idempotence and purity -/

/-- C6: set_property called when the Property Map already holds the
value changes neither the Property Map nor the Dirty Set; calling it
twice with the same value is the same as calling it once (so the key is
dirtied at most once); one call appends the wire key to the Dirty Set at
most once; and get_property never mutates the state. -/
theorem set_property_idempotent (s : DevState) (k : String) (v : PyVal)
    (hv : s.properties.lookup k = some v) :
    set_property s k v = s
    ∧ (∀ s0 : DevState,
        set_property (set_property s0 k v) k v = set_property s0 k v)
    ∧ (∀ s0 : DevState,
        (set_property s0 k v).dirty.count k ≤ s0.dirty.count k + 1)
    ∧ (∀ (s0 : DevState) (k0 : String), (get_property s0 k0).1 = s0) := by
  refine ⟨?_, ?_, ?_, ?_⟩
  · simp [set_property, pyDictGet, hv]
  · intro s0
    by_cases h : pyDictGet s0.properties k = v
    · simp [set_property, h]
    · simp only [set_property, if_neg h]
      have hg : pyDictGet (pyDictInsert s0.properties k v) k = v := by
        simp [pyDictGet, lookup_pyDictInsert]
      simp [set_property, hg]
  · intro s0
    by_cases h : pyDictGet s0.properties k = v
    · simp only [set_property, if_pos h]
      exact Nat.le_succ_of_le le_rfl
    · simp only [set_property, if_neg h]
      by_cases hm : k ∈ s0.dirty
      · simp only [if_pos hm]
        exact Nat.le_succ_of_le le_rfl
      · simp [if_neg hm, List.count_append]
  · intro s0 k0
    rfl

/-- C6 witness: the no-op set, the double set, the at-most-once dirty
count and the pure get, on the concrete handle c6State. -/
theorem set_property_idempotent_witness :
    set_property c6State "Pow" (.vint 1) = c6State
    ∧ set_property (set_property c6State "Mod" (.vint 4)) "Mod" (.vint 4)
        = set_property c6State "Mod" (.vint 4)
    ∧ (set_property c6State "Mod" (.vint 4)).dirty.count "Mod"
        ≤ c6State.dirty.count "Mod" + 1
    ∧ (get_property c6State "Pow").1 = c6State := by
  have h1 := set_property_idempotent c6State "Pow" (.vint 1) (by decide)
  have h2 := set_property_idempotent c6State "Mod" (.vint 4) (by decide)
  exact ⟨h1.1, h2.2.1 c6State, h2.2.2.1 c6State, h1.2.2.2 c6State "Pow"⟩

/-! ## C1: the Dirty Set across a failed push -/

/-- C1 counterexample: a bound handle with the Dirty Set ["Pow"] whose
push times out.  The push surfaces DeviceTimeoutError, but afterwards
the Dirty Set is empty: the key "Pow" that was being pushed is no longer
recorded as pending, contradicting the claim that after a failed push
the affected keys are still dirty. -/
theorem push_timeout_drops_dirty_counterexample :
    (push_state_update c1State (.ok (.vstr "x")) .timeout).2
        = .error .deviceTimeout
    ∧ (push_state_update c1State (.ok (.vstr "x")) .timeout).1.dirty = []
    ∧ "Pow" ∈ c1State.dirty
    ∧ "Pow" ∉ (push_state_update c1State (.ok (.vstr "x")) .timeout).1.dirty := by
  exact ⟨rfl, rfl, by decide, by decide⟩

/-- C1 amended: push_state_update clears the Dirty Set at the start of
the push; when the send then times out the error is surfaced as
DeviceTimeoutError (the failure is not silent) but the cleared entries
are not restored - the Dirty Set is empty after the failed push and the
Property Map keeps the values, so an entry becomes pending again only
through a new set_property call. -/
theorem push_timeout_clears_dirty (s : DevState)
    (bindR : Except DevError PyVal)
    (h1 : s.dirty.isEmpty = false) (h2 : s.cipherKey.isSome)
    (h3 : s.deviceInfo.isSome) :
    (push_state_update s bindR .timeout).2 = .error .deviceTimeout
    ∧ (push_state_update s bindR .timeout).1.dirty = []
    ∧ (push_state_update s bindR .timeout).1.properties = s.properties := by
  obtain ⟨ck, hck⟩ := Option.isSome_iff_exists.mp h2
  obtain ⟨di, hdi⟩ := Option.isSome_iff_exists.mp h3
  simp [push_state_update, push_state_update.pushAfterBind, h1, hck, hdi]

/-- C1 amended witness: the amended statement at the concrete handle
c1State. -/
theorem push_timeout_clears_dirty_witness :
    (push_state_update c1State (.ok (.vstr "y")) .timeout).2
        = .error .deviceTimeout
    ∧ (push_state_update c1State (.ok (.vstr "y")) .timeout).1.dirty = []
    ∧ (push_state_update c1State (.ok (.vstr "y")) .timeout).1.properties
        = c1State.properties :=
  push_timeout_clears_dirty c1State (.ok (.vstr "y"))
    (by decide) (by decide) (by decide)

/-! ## C8: handle equality -/

/-- The guard chain of __eq__ as one boolean conjunction. -/
theorem device_eq_eq_bool (a b : DevState) :
    device_eq a b =
      (optInfoEq a.deviceInfo b.deviceInfo
       && (a.cipherKey.isSome == b.cipherKey.isSome)
       && (!(a.cipherKey.isSome && b.cipherKey.isSome)
           || a.cipherKey == b.cipherKey)
       && a.dirty.isEmpty && b.dirty.isEmpty
       && pyDictEq a.properties b.properties) := by
  unfold device_eq
  by_cases hk : a.cipherKey = b.cipherKey <;>
    cases h1 : optInfoEq a.deviceInfo b.deviceInfo <;>
    cases h2 : a.cipherKey.isSome <;>
    cases h3 : b.cipherKey.isSome <;>
    cases h4 : a.dirty.isEmpty <;>
    cases h5 : b.dirty.isEmpty <;>
    simp_all

/-- C8: two device handles compare equal exactly when their DeviceInfo
references are equal, their bound/unbound states agree, the installed
keys agree whenever both are bound, neither handle has a pending dirty
key, and the full Property Maps are equal as dictionaries. -/
theorem device_eq_characterization (a b : DevState) :
    device_eq a b = true ↔
      (optInfoEq a.deviceInfo b.deviceInfo = true
       ∧ a.cipherKey.isSome = b.cipherKey.isSome
       ∧ (a.cipherKey.isSome = true → b.cipherKey.isSome = true →
            a.cipherKey = b.cipherKey)
       ∧ a.dirty = []
       ∧ b.dirty = []
       ∧ pyDictEq a.properties b.properties = true) := by
  rw [device_eq_eq_bool]
  simp only [Bool.and_eq_true, Bool.or_eq_true, Bool.not_eq_true',
    Bool.and_eq_false_iff, beq_iff_eq, List.isEmpty_iff]
  constructor
  · rintro ⟨⟨⟨⟨⟨g1, g2⟩, g3⟩, g4⟩, g5⟩, g6⟩
    refine ⟨g1, g2, ?_, g4, g5, g6⟩
    intro ha hb
    rcases g3 with g3 | g3
    · rcases g3 with g3 | g3 <;> simp_all
    · exact g3
  · rintro ⟨g1, g2, g3, g4, g5, g6⟩
    refine ⟨⟨⟨⟨⟨g1, g2⟩, ?_⟩, g4⟩, g5⟩, g6⟩
    by_cases ha : a.cipherKey.isSome = true
    · exact Or.inr (g3 ha (g2 ▸ ha))
    · exact Or.inl (Or.inl (by simpa using ha))

/-- C8 witness: a concrete clean bound handle is equal to itself, and
adding a pending dirty key breaks equality. -/
theorem device_eq_characterization_witness :
    device_eq c8State c8State = true
    ∧ device_eq c8State { c8State with dirty := ["Pow"] } = false := by
  constructor
  · exact (device_eq_characterization c8State c8State).mpr
      ⟨by decide, rfl, fun _ _ => rfl, rfl, rfl, by decide⟩
  · decide

/-! ## C9: the Dirty Set invariant -/

/-- Both send branches of the push body return the handle with the
Dirty Set cleared. -/
theorem pushAfterBind_fst (s1 : DevState) (r : SendSim) :
    (push_state_update.pushAfterBind s1 r).1 = { s1 with dirty := [] } := by
  cases r <;> unfold push_state_update.pushAfterBind <;> split <;> rfl

/-- Clearing the Dirty Set trivially restores the invariant. -/
theorem dirtyInv_clear (s1 : DevState) : DirtyInv { s1 with dirty := [] } :=
  ⟨by simp, List.nodup_nil⟩

/-- C9: every operation on a device handle preserves the invariant that
each Dirty Set key is a Property Map key and the Dirty Set has no
duplicates: set_property inserts the key into both together (and never
re-appends), get_property reads only, push_state_update clears the
Dirty Set, and handle_state_update only grows the Property Map. -/
theorem dirty_invariant_preserved (s : DevState) (k : String) (v : PyVal)
    (kwargs : List (String × PyVal)) (bindR : Except DevError PyVal)
    (sendR : SendSim) (hInv : DirtyInv s) :
    DirtyInv (set_property s k v)
    ∧ DirtyInv (get_property s k).1
    ∧ DirtyInv (push_state_update s bindR sendR).1
    ∧ DirtyInv (handle_state_update s kwargs) := by
  obtain ⟨hmem, hnodup⟩ := hInv
  refine ⟨?_, ?_, ?_, ?_⟩
  · by_cases h : pyDictGet s.properties k = v
    · simpa [set_property, h] using ⟨hmem, hnodup⟩
    · simp only [set_property, if_neg h]
      by_cases hm : k ∈ s.dirty
      · refine ⟨?_, by simpa [hm] using hnodup⟩
        intro k' hk'
        simp only [if_pos hm] at hk'
        exact lookup_isSome_pyDictInsert _ _ _ _ (hmem k' hk')
      · refine ⟨?_, ?_⟩
        · intro k' hk'
          simp only [if_neg hm, List.mem_append, List.mem_singleton] at hk'
          rcases hk' with hk' | hk'
          · exact lookup_isSome_pyDictInsert _ _ _ _ (hmem k' hk')
          · subst hk'
            rw [lookup_pyDictInsert]
            simp
        · simp only [if_neg hm]
          rw [List.nodup_append]
          exact ⟨hnodup, List.nodup_singleton k,
            fun a ha hb => hm (by simpa [List.mem_singleton.mp hb] using ha)⟩
  · exact ⟨hmem, hnodup⟩
  · unfold push_state_update
    by_cases he : s.dirty.isEmpty
    · simpa [he] using ⟨hmem, hnodup⟩
    · cases hck : s.cipherKey with
      | some c =>
        simp only [he, Bool.false_eq_true, if_false, hck]
        rw [pushAfterBind_fst]
        exact dirtyInv_clear s
      | none =>
        cases bindR with
        | error e => simpa [he, hck] using ⟨hmem, hnodup⟩
        | ok kk =>
          simp only [he, Bool.false_eq_true, if_false, hck]
          rw [pushAfterBind_fst]
          exact dirtyInv_clear _
  · unfold handle_state_update
    cases hl : kwargs.lookup "hid" with
    | some hv =>
      refine ⟨?_, hnodup⟩
      intro k' hk'
      exact lookup_isSome_pyDictUpdate _ _ _ (hmem k' hk')
    | none =>
      refine ⟨?_, hnodup⟩
      intro k' hk'
      exact lookup_isSome_pyDictUpdate _ _ _ (hmem k' hk')

/-- C9 witness: the invariant is preserved by all four operations on
the concrete handle c9State. -/
theorem dirty_invariant_preserved_witness :
    DirtyInv (set_property c9State "Pow" (.vint 0))
    ∧ DirtyInv (get_property c9State "Pow").1
    ∧ DirtyInv (push_state_update c9State (.ok (.vstr "k")) .ok).1
    ∧ DirtyInv (handle_state_update c9State [("Pow", .vint 0)]) :=
  dirty_invariant_preserved c9State "Pow" (.vint 0) [("Pow", .vint 0)]
    (.ok (.vstr "k")) .ok ⟨by decide, by decide⟩

/-! ## C5: temperature companion fields in the push payload -/

/-- Every value in the push payload is the current Property Map value
of its own key: the loop only ever writes props[name] from
properties.get(name), for the dirty key and for both companions. -/
theorem pushPayload_lookup_val (props : List (String × PyVal))
    (dirty : List String) :
    ∀ acc : List (String × PyVal),
      (∀ k v, acc.lookup k = some v → v = pyDictGet props k) →
      ∀ k v, (dirty.foldl (pushPayloadStep props) acc).lookup k = some v →
        v = pyDictGet props k := by
  induction dirty with
  | nil => exact fun acc hacc k v h => hacc k v h
  | cons name rest ih =>
    intro acc hacc k v h
    simp only [List.foldl_cons] at h
    refine ih _ ?_ k v h
    intro k1 v1 h1
    unfold pushPayloadStep at h1
    by_cases hn : name = "SetTem"
    · simp only [if_pos hn] at h1
      rw [lookup_pyDictInsert] at h1
      by_cases hu : k1 = "TemUn"
      · subst hu
        rw [if_pos rfl] at h1
        exact (Option.some.inj h1).symm
      · rw [if_neg hu, lookup_pyDictInsert] at h1
        by_cases hr : k1 = "TemRec"
        · subst hr
          rw [if_pos rfl] at h1
          exact (Option.some.inj h1).symm
        · rw [if_neg hr, lookup_pyDictInsert] at h1
          by_cases hs : k1 = name
          · subst hs
            rw [if_pos rfl] at h1
            exact (Option.some.inj h1).symm
          · rw [if_neg hs] at h1
            exact hacc _ _ h1
    · simp only [if_neg hn] at h1
      rw [lookup_pyDictInsert] at h1
      by_cases hs : k1 = name
      · subst hs
        rw [if_pos rfl] at h1
        exact (Option.some.inj h1).symm
      · rw [if_neg hs] at h1
        exact hacc _ _ h1

/-- A key present in the accumulating payload stays present. -/
theorem pushPayload_persist (props : List (String × PyVal))
    (dirty : List String) :
    ∀ (acc : List (String × PyVal)) (k : String), (acc.lookup k).isSome →
      ((dirty.foldl (pushPayloadStep props) acc).lookup k).isSome := by
  induction dirty with
  | nil => exact fun acc k h => h
  | cons name rest ih =>
    intro acc k h
    simp only [List.foldl_cons]
    refine ih _ k ?_
    unfold pushPayloadStep
    by_cases hn : name = "SetTem"
    · simp only [if_pos hn]
      exact lookup_isSome_pyDictInsert _ _ _ _
        (lookup_isSome_pyDictInsert _ _ _ _
          (lookup_isSome_pyDictInsert _ _ _ _ h))
    · simp only [if_neg hn]
      exact lookup_isSome_pyDictInsert _ _ _ _ h

/-- When SetTem is dirty the payload ends up holding SetTem, TemRec and
TemUn. -/
theorem pushPayload_setTem_mem (props : List (String × PyVal))
    (dirty : List String) :
    ∀ acc : List (String × PyVal), "SetTem" ∈ dirty →
      ((dirty.foldl (pushPayloadStep props) acc).lookup "SetTem").isSome
      ∧ ((dirty.foldl (pushPayloadStep props) acc).lookup "TemRec").isSome
      ∧ ((dirty.foldl (pushPayloadStep props) acc).lookup "TemUn").isSome := by
  induction dirty with
  | nil => intro acc h; simp at h
  | cons name rest ih =>
    intro acc h
    simp only [List.foldl_cons]
    rcases List.mem_cons.mp h with hh | hh
    · subst hh
      have hstep : ∀ k0 : String,
          k0 = "SetTem" ∨ k0 = "TemRec" ∨ k0 = "TemUn" →
          ((pushPayloadStep props acc "SetTem").lookup k0).isSome := by
        intro k0 hk0
        unfold pushPayloadStep
        simp only [if_pos rfl]
        rcases hk0 with hk0 | hk0 | hk0 <;> subst hk0 <;>
          simp [lookup_pyDictInsert]
      exact ⟨pushPayload_persist props rest _ _ (hstep "SetTem" (Or.inl rfl)),
        pushPayload_persist props rest _ _ (hstep "TemRec" (Or.inr (Or.inl rfl))),
        pushPayload_persist props rest _ _ (hstep "TemUn" (Or.inr (Or.inr rfl)))⟩
    · exact ih (pushPayloadStep props acc name) hh

/-- C5: whenever the Dirty Set contains the temperature setpoint key
SetTem, the command payload sent by push_state_update also carries the
fractional-bit companion TemRec and the unit companion TemUn, each with
its current Property Map value, whether or not those companions are
dirty themselves. -/
theorem push_payload_companions (s : DevState)
    (bindR : Except DevError PyVal)
    (hd : "SetTem" ∈ s.dirty) (h2 : s.cipherKey.isSome)
    (h3 : s.deviceInfo.isSome) :
    ∃ payload,
      (push_state_update s bindR .ok).2 = .ok (some payload)
      ∧ payload.lookup "SetTem" = some (pyDictGet s.properties "SetTem")
      ∧ payload.lookup "TemRec" = some (pyDictGet s.properties "TemRec")
      ∧ payload.lookup "TemUn" = some (pyDictGet s.properties "TemUn") := by
  obtain ⟨ck, hck⟩ := Option.isSome_iff_exists.mp h2
  obtain ⟨di, hdi⟩ := Option.isSome_iff_exists.mp h3
  have hne : s.dirty.isEmpty = false := by
    cases hie : s.dirty.isEmpty
    · rfl
    · exact absurd (List.isEmpty_iff.mp hie) (List.ne_nil_of_mem hd)
  have hmem := pushPayload_setTem_mem s.properties s.dirty [] hd
  have hval := pushPayload_lookup_val s.properties s.dirty []
    (by intro k v h; simp at h)
  refine ⟨buildPushPayload s.dirty s.properties, ?_, ?_, ?_, ?_⟩
  · simp [push_state_update, hne, hck, push_state_update.pushAfterBind, hdi]
  · obtain ⟨v, hv⟩ := Option.isSome_iff_exists.mp hmem.1
    rw [buildPushPayload, hv, hval "SetTem" v hv]
  · obtain ⟨v, hv⟩ := Option.isSome_iff_exists.mp hmem.2.1
    rw [buildPushPayload, hv, hval "TemRec" v hv]
  · obtain ⟨v, hv⟩ := Option.isSome_iff_exists.mp hmem.2.2
    rw [buildPushPayload, hv, hval "TemUn" v hv]

/-- C5 witness: setting a Fahrenheit-unit target temperature of 75 F on
c5State0 writes SetTem 24 and TemRec 0 and dirties both, and the
following push carries SetTem, TemRec and TemUn together with their
current Property Map values. -/
theorem push_payload_companions_witness :
    setTargetTemperature c5State0 75 = some c5State1
    ∧ ∃ payload,
        (push_state_update c5State1 (.ok (.vstr "k")) .ok).2
          = .ok (some payload)
        ∧ payload.lookup "SetTem" = some (pyDictGet c5State1.properties "SetTem")
        ∧ payload.lookup "TemRec" = some (pyDictGet c5State1.properties "TemRec")
        ∧ payload.lookup "TemUn" = some (pyDictGet c5State1.properties "TemUn") := by
  constructor
  · have hr : generate_temperature_record 75 = (24, 0) := by
      norm_num [generate_temperature_record, pyRound]
    simp only [setTargetTemperature, hr]
    decide
  · exact push_payload_companions c5State1 (.ok (.vstr "k"))
      (by decide) (by decide) (by decide)

/-! ## C4: update_state batching -/

/-- Concatenating the batches restores the property list. -/
theorem chunkGo_join {α : Type} (n : Nat) (hn : n ≠ 0) :
    ∀ (fuel : Nat) (l : List α), l.length ≤ fuel →
      (chunkGo n l fuel).join = l := by
  intro fuel
  induction fuel with
  | zero =>
    intro l hl
    cases l with
    | nil => rfl
    | cons a t => simp at hl
  | succ f ih =>
    intro l hl
    cases l with
    | nil => rfl
    | cons a t =>
      have h1 : 1 ≤ n := Nat.one_le_iff_ne_zero.mpr hn
      simp only [List.length_cons] at hl
      have hlen : ((a :: t).drop n).length ≤ f := by
        simp only [List.length_drop, List.length_cons]
        omega
      simp only [chunkGo, List.join_cons, ih _ hlen]
      exact List.take_append_drop n (a :: t)

/-- The number of batches is the ceiling of length over batch size. -/
theorem chunkGo_length {α : Type} (n : Nat) (hn : n ≠ 0) :
    ∀ (fuel : Nat) (l : List α), l.length ≤ fuel →
      (chunkGo n l fuel).length = (l.length + n - 1) / n := by
  intro fuel
  induction fuel with
  | zero =>
    intro l hl
    cases l with
    | nil =>
      simp only [chunkGo, List.length_nil]
      rw [Nat.div_eq_of_lt (by omega)]
    | cons a t => simp at hl
  | succ f ih =>
    intro l hl
    cases l with
    | nil =>
      simp only [chunkGo, List.length_nil]
      rw [Nat.div_eq_of_lt (by omega)]
    | cons a t =>
      have h1 : 1 ≤ n := Nat.one_le_iff_ne_zero.mpr hn
      simp only [List.length_cons] at hl
      have hlen : ((a :: t).drop n).length ≤ f := by
        simp only [List.length_drop, List.length_cons]
        omega
      simp only [chunkGo, List.length_cons, ih _ hlen, List.length_drop,
        List.length_cons]
      by_cases hc : n ≤ t.length + 1
      · have e1 : t.length + 1 - n + n - 1 = t.length := by omega
        have e2 : t.length + 1 + n - 1 = t.length + n := by omega
        rw [e1, e2, Nat.add_div_right _ (by omega)]
      · have e1 : t.length + 1 - n = 0 := by omega
        have e2 : t.length + 1 + n - 1 = t.length + n := by omega
        rw [e1, e2]
        have h3 : (0 + n - 1) / n = 0 := Nat.div_eq_of_lt (by omega)
        have h4 : t.length / n = 0 := Nat.div_eq_of_lt (by omega)
        rw [h3, Nat.add_div_right _ (by omega), h4]

/-- A non-empty list yields at least one batch. -/
theorem chunkGo_ne_nil {α : Type} (n : Nat) (l : List α) (fuel : Nat)
    (hne : l ≠ []) (hl : l.length ≤ fuel) : chunkGo n l fuel ≠ [] := by
  cases l with
  | nil => exact absurd rfl hne
  | cons a t =>
    cases fuel with
    | zero => simp at hl
    | succ f => simp [chunkGo]

/-- Every batch except possibly the last has exactly n keys. -/
theorem chunkGo_dropLast {α : Type} (n : Nat) (hn : n ≠ 0) :
    ∀ (fuel : Nat) (l : List α), l.length ≤ fuel →
      ∀ b ∈ (chunkGo n l fuel).dropLast, b.length = n := by
  intro fuel
  induction fuel with
  | zero =>
    intro l hl b hb
    cases l with
    | nil => simp [chunkGo] at hb
    | cons a t => simp at hl
  | succ f ih =>
    intro l hl b hb
    cases l with
    | nil => simp [chunkGo] at hb
    | cons a t =>
      have h1 : 1 ≤ n := Nat.one_le_iff_ne_zero.mpr hn
      simp only [List.length_cons] at hl
      by_cases hd : (a :: t).length ≤ n
      · have hnil : (a :: t).drop n = [] := by
          have : ((a :: t).drop n).length = 0 := by
            simp only [List.length_drop, List.length_cons]
            simp only [List.length_cons] at hd
            omega
          exact List.eq_nil_of_length_eq_zero this
        simp [chunkGo, hnil] at hb
      · push_neg at hd
        have hne2 : (a :: t).drop n ≠ [] := by
          have hpos : 0 < ((a :: t).drop n).length := by
            simp only [List.length_drop, List.length_cons]
            simp only [List.length_cons] at hd
            omega
          exact List.length_pos.mp hpos
        have hlen2 : ((a :: t).drop n).length ≤ f := by
          simp only [List.length_drop, List.length_cons]
          omega
        have hchne : chunkGo n ((a :: t).drop n) f ≠ [] :=
          chunkGo_ne_nil n _ f hne2 hlen2
        simp only [chunkGo] at hb
        cases hck : chunkGo n ((a :: t).drop n) f with
        | nil => exact absurd hck hchne
        | cons c cs =>
          rw [hck, List.dropLast_cons₂] at hb
          rcases List.mem_cons.mp hb with hb | hb
          · subst hb
            rw [List.length_take]
            simp only [List.length_cons]
            simp only [List.length_cons] at hd
            omega
          · rw [← hck] at hb
            exact ih _ hlen2 b hb

/-- C4: splitting the property list into batches of 23 produces exactly
ceil(N / 23) requests, each batch except possibly the last has exactly
23 keys, and the concatenation of the batches in issue order is exactly
the full property list (so the union of the requested keys is the whole
property set, including "hid" when the firmware id is unknown); the
request sequence of AwhpDevice.update_state is this batch list in
order, each send awaited before the next. -/
theorem update_state_batching :
    (∀ ps : List String,
      (chunkList 23 ps).length = (ps.length + 23 - 1) / 23
      ∧ (chunkList 23 ps).join = ps
      ∧ ∀ b ∈ (chunkList 23 ps).dropLast, b.length = 23)
    ∧ (∀ hid : Option PyVal,
        (updateStateBatches hid).join = updateStateProps hid
        ∧ (updateStateBatches hid).length
            = ((updateStateProps hid).length + 23 - 1) / 23
        ∧ ∀ b ∈ (updateStateBatches hid).dropLast, b.length = 23)
    ∧ (updateStateProps none).length = 46
    ∧ (updateStateBatches none).length = 2 := by
  have hgen : ∀ ps : List String,
      (chunkList 23 ps).length = (ps.length + 23 - 1) / 23
      ∧ (chunkList 23 ps).join = ps
      ∧ ∀ b ∈ (chunkList 23 ps).dropLast, b.length = 23 := by
    intro ps
    refine ⟨?_, ?_, ?_⟩
    · unfold chunkList
      rw [if_neg (by omega)]
      exact chunkGo_length 23 (by omega) ps.length ps le_rfl
    · unfold chunkList
      rw [if_neg (by omega)]
      exact chunkGo_join 23 (by omega) ps.length ps le_rfl
    · intro b hb
      unfold chunkList at hb
      rw [if_neg (by omega)] at hb
      exact chunkGo_dropLast 23 (by omega) ps.length ps le_rfl b hb
  refine ⟨hgen, ?_, by rfl, by rfl⟩
  intro hid
  exact ⟨(hgen (updateStateProps hid)).2.1, (hgen (updateStateProps hid)).1,
    (hgen (updateStateProps hid)).2.2⟩

/-- C4 witness: with the firmware id unknown the 45 known keys plus
"hid" give 46 keys and exactly 2 batches whose concatenation is the
full list; the non-final batch has exactly 23 keys. -/
theorem update_state_batching_witness :
    (updateStateBatches none).join = updateStateProps none
    ∧ (updateStateBatches none).length = 2
    ∧ ((updateStateProps none).take 23).length = 23 := by
  obtain ⟨hgen, hconc, hlen46, hlen2⟩ := update_state_batching
  exact ⟨(hconc none).1, hlen2,
    (hgen (updateStateProps none)).2.2 ((updateStateProps none).take 23)
      (by decide)⟩

/-! ## C3: bind cipher fallback order -/

/-- C3: with no cipher specified, bind tries CipherV1 first; when the V1
attempt times out the V2 candidate is attempted before any error
surfaces; when both candidates time out the surfaced error is the typed
DeviceTimeoutError.  When a specific cipher is supplied only that cipher
is attempted, and its timeout surfaces as DeviceTimeoutError with no
fallback.  The first component of the result is the ordered trace of
ciphers actually tried. -/
theorem bind_fallback_order (attempt : CipherKind → AttemptResult) :
    (∀ k, attempt .v1 = .ok k →
      BaseDevice.bind true none none attempt = ([.v1], .ok (.v1, k)))
    ∧ (∀ k, attempt .v1 = .timeout → attempt .v2 = .ok k →
        BaseDevice.bind true none none attempt = ([.v1, .v2], .ok (.v2, k)))
    ∧ (attempt .v1 = .timeout → attempt .v2 = .timeout →
        BaseDevice.bind true none none attempt = ([.v1, .v2], .error .deviceTimeout))
    ∧ (∀ c, attempt c = .timeout →
        BaseDevice.bind true none (some c) attempt = ([c], .error .deviceTimeout)) := by
  refine ⟨?_, ?_, ?_, ?_⟩
  · intro k h1
    simp [BaseDevice.bind, h1]
  · intro k h1 h2
    simp [BaseDevice.bind, h1, h2]
  · intro h1 h2
    simp [BaseDevice.bind, h1, h2]
  · intro c h1
    simp [BaseDevice.bind, h1]

/-- C3 witness: in an environment where every attempt times out, the
negotiated path tries V1 then V2 and surfaces DeviceTimeoutError, and
the specific-cipher path tries only V1 and surfaces
DeviceTimeoutError. -/
theorem bind_fallback_order_witness :
    BaseDevice.bind true none none c3AttemptTimeout = ([.v1, .v2], .error .deviceTimeout)
    ∧ BaseDevice.bind true none (some .v1) c3AttemptTimeout
        = ([.v1], .error .deviceTimeout) :=
  ⟨(bind_fallback_order c3AttemptTimeout).2.2.1 rfl rfl,
   (bind_fallback_order c3AttemptTimeout).2.2.2 .v1 rfl⟩

/-! ## C7: unknown and malformed packets are harmless -/

/-- C7: packet_received is total on every inbound packet (no exception
reaches the transport layer), and for every packet whose pack.t is
unknown, whose pack is missing or still an undecrypted string, or whose
required extraction fields are missing, the packet is routed to the
unknown-packet handler or the attribute/key error is caught and logged;
in all those cases the Property Map, Dirty Set, hid/version and the
ready gate are left unchanged. -/
theorem packet_received_unknown_safe (s : DevState) (p : Packet)
    (h : unknownOrMalformed p = true) :
    (packet_received s p).1 = s
    ∧ ((packet_received s p).2 = .unknown
       ∨ (packet_received s p).2 = .errorCaught) := by
  rcases p with ⟨_ | pk⟩
  · exact ⟨rfl, Or.inl rfl⟩
  · rcases pk with str | o
    · exact ⟨rfl, Or.inr rfl⟩
    · rcases o with ⟨t, key, cols, dat, opt, val⟩
      rcases t with _ | tv
      · exact ⟨rfl, Or.inl rfl⟩
      · rcases tv with _ | n | st
        · exact ⟨rfl, Or.inl rfl⟩
        · exact ⟨rfl, Or.inl rfl⟩
        · by_cases hb : st = "bindok"
          · subst hb
            simp only [unknownOrMalformed, decide_eq_true_eq] at h
            subst h
            exact ⟨rfl, Or.inr rfl⟩
          · by_cases hd : st = "dat"
            · subst hd
              simp only [unknownOrMalformed, Bool.or_eq_true,
                decide_eq_true_eq] at h
              rcases h with h | h
              · subst h
                exact ⟨rfl, Or.inr rfl⟩
              · subst h
                rcases cols with _ | c
                · exact ⟨rfl, Or.inr rfl⟩
                · exact ⟨rfl, Or.inr rfl⟩
            · by_cases hr : st = "res"
              · subst hr
                simp only [unknownOrMalformed, Bool.or_eq_true,
                  decide_eq_true_eq] at h
                rcases h with h | h
                · subst h
                  exact ⟨rfl, Or.inr rfl⟩
                · subst h
                  rcases opt with _ | c
                  · exact ⟨rfl, Or.inr rfl⟩
                  · exact ⟨rfl, Or.inr rfl⟩
              · refine ⟨?_, ?_⟩
                · simp only [packet_received]
                  split
                  all_goals first | rfl | simp_all
                · simp only [packet_received]
                  split
                  all_goals first | exact Or.inl rfl | exact Or.inr rfl | simp_all

/-- C7 witness: the inbound datagram pack {"t": "unknown"} is processed
without exception, routed to the unknown-packet handler, and leaves the
concrete handle c7State unchanged. -/
theorem packet_received_unknown_safe_witness :
    (packet_received c7State c7Packet).1 = c7State
    ∧ ((packet_received c7State c7Packet).2 = .unknown
       ∨ (packet_received c7State c7Packet).2 = .errorCaught) :=
  packet_received_unknown_safe c7State c7Packet (by decide)

/-! ## C2: cipher round-trip -/

/-- Replacing an empty pattern removes nothing. -/
theorem pyRemoveGo_nil : ∀ (l : List Char) (fuel : Nat),
    pyRemoveGo [] l fuel = l := by
  intro l
  induction l with
  | nil => intro fuel; cases fuel <;> rfl
  | cons c rest ih =>
    intro fuel
    cases fuel with
    | zero => rfl
    | succ f => simp [pyRemoveGo, ih]

/-- Replacing an empty pattern removes nothing (Python
s.replace(\"\", \"\") is s). -/
theorem pyRemove_nil (l : List Char) : pyRemove [] l = l :=
  pyRemoveGo_nil l l.length

/-- When a non-empty pattern shares no character with s, removing every
occurrence of the pattern from s ++ pattern leaves exactly s: the only
occurrence is the final one (no occurrence can start inside s). -/
theorem pyRemoveGo_boundary (pat : List Char) (hpat : pat ≠ []) :
    ∀ s : List Char, (∀ a ∈ pat, a ∉ s) →
      ∀ fuel : Nat, (s ++ pat).length ≤ fuel →
        pyRemoveGo pat (s ++ pat) fuel = s := by
  intro s
  induction s with
  | nil =>
    intro hdis fuel hf
    cases pat with
    | nil => exact absurd rfl hpat
    | cons p pr =>
      cases fuel with
      | zero => simp at hf
      | succ f =>
        have hpre : (p :: pr).isPrefixOf (p :: pr) = true := by
          rw [List.isPrefixOf_iff_prefix]
        simp [pyRemoveGo, hpre, List.drop_length]
  | cons c s2 ih =>
    intro hdis fuel hf
    cases fuel with
    | zero => simp at hf
    | succ f =>
      have hie : pat.isEmpty = false := by
        cases pat with
        | nil => exact absurd rfl hpat
        | cons p pr => rfl
      have hpre : pat.isPrefixOf (c :: (s2 ++ pat)) = false := by
        cases pat with
        | nil => exact absurd rfl hpat
        | cons p pr =>
          have hp : p ≠ c := by
            intro he
            exact (hdis p (List.mem_cons_self p pr))
              (he ▸ List.mem_cons_self c s2)
          simp [List.isPrefixOf, hp]
      have hdis2 : ∀ a ∈ pat, a ∉ s2 :=
        fun a ha hm => hdis a ha (List.mem_cons_of_mem c hm)
      have hf2 : (s2 ++ pat).length ≤ f := by
        simp only [List.cons_append, List.length_cons] at hf
        omega
      simp [pyRemoveGo, hie, hpre, ih hdis2 f hf2]

/-- takeWhile passes over a block that satisfies the predicate. -/
theorem takeWhile_append_all {α : Type} (P : α → Bool) :
    ∀ l1 l2 : List α, (∀ a ∈ l1, P a = true) →
      List.takeWhile P (l1 ++ l2) = l1 ++ List.takeWhile P l2 := by
  intro l1 l2
  induction l1 with
  | nil => intro _; rfl
  | cons a l1t ih =>
    intro h
    have ha : P a = true := h a (List.mem_cons_self a l1t)
    simp [List.takeWhile_cons, ha, ih (fun b hb => h b (List.mem_cons_of_mem a hb))]

/-- The substring after the last brace of (t ++ brace) ++ p is p when p
holds no brace. -/
theorem afterLast_append (c : Char) (t p : List Char)
    (hp : ∀ a ∈ p, a ≠ c) : afterLast c ((t ++ [c]) ++ p) = p := by
  unfold afterLast
  rw [List.reverse_append, List.reverse_append]
  have h1 : List.takeWhile (fun a => a ≠ c) (p.reverse ++ ([c].reverse ++ t.reverse))
      = p.reverse ++ List.takeWhile (fun a => a ≠ c) ([c].reverse ++ t.reverse) := by
    apply takeWhile_append_all
    intro a ha
    simp only [decide_eq_true_eq]
    exact hp a (List.mem_reverse.mp ha)
  rw [h1]
  simp [List.takeWhile_cons]

/-- Character facts for the pad byte values 1..16: the code point is
the value itself and is never the closing brace. -/
theorem charOfNat_small (m : Nat) (h1 : 1 ≤ m) (h2 : m ≤ 16) :
    (Char.ofNat m).toNat = m ∧ Char.ofNat m ≠ braceChar := by
  interval_cases m <;> exact ⟨by decide, by decide⟩

/-- The defensive parse of a padded object text: with a non-empty pad
block holding no brace and no character of the object text, the rindex
truncation plus replace recovers exactly the object text. -/
theorem truncateAndLoad_append {α : Type} (loads : List Char → Option α)
    (t pad : List Char) (hpd : pad ≠ [])
    (hbr : ∀ a ∈ pad, a ≠ braceChar)
    (hdis : ∀ a ∈ pad, a ∉ t ++ [braceChar]) :
    truncateAndLoad loads ((t ++ [braceChar]) ++ pad)
      = loads (t ++ [braceChar]) := by
  unfold truncateAndLoad
  rw [if_pos (by simp : braceChar ∈ (t ++ [braceChar]) ++ pad)]
  rw [afterLast_append braceChar t pad hbr]
  exact congrArg loads
    (pyRemoveGo_boundary pad hpd (t ++ [braceChar]) hdis _ le_rfl)

/-- The defensive parse of a bare object text is the identity: the
substring after the last brace is empty and replacing the empty string
changes nothing. -/
theorem truncateAndLoad_obj {α : Type} (loads : List Char → Option α)
    (t : List Char) :
    truncateAndLoad loads (t ++ [braceChar]) = loads (t ++ [braceChar]) := by
  unfold truncateAndLoad
  rw [if_pos (by simp : braceChar ∈ t ++ [braceChar])]
  have h0 : afterLast braceChar (t ++ [braceChar]) = [] := by
    have := afterLast_append braceChar t [] (by simp)
    simpa using this
  rw [h0, pyRemove_nil]

/-- C2: for both cipher variants, decrypting the first component of the
encryption of x returns exactly x, for every x whose JSON serialization
is an object text (it ends with a closing brace and, json.dumps escaping
control and non-ASCII characters, contains only code points at or above
32).  The external primitives enter through their library contracts:
AES-ECB decrypt inverts encrypt, base64 decode inverts encode, AES-GCM
decrypt (same key, nonce and AAD) inverts the ciphertext component of
encrypt_and_digest, and json.loads inverts json.dumps.  Everything
cipher.py computes - the V1 byte-value padding, the rindex truncation
after the last brace, Python str.replace - is evaluated concretely. -/
theorem cipher_roundtrip {α : Type}
    (aesE aesD b64e b64d gcmD : List Char → List Char)
    (gcmE : List Char → List Char × List Char)
    (dumps : α → List Char) (loads : List Char → Option α) (x : α)
    (haes : ∀ s, aesD (aesE s) = s)
    (hb64 : ∀ s, b64d (b64e s) = s)
    (hgcm : ∀ s, gcmD (gcmE s).1 = s)
    (hload : loads (dumps x) = some x)
    (hobj : ∃ t, dumps x = t ++ [braceChar])
    (hctrl : ∀ c ∈ dumps x, 32 ≤ c.toNat) :
    cipherV1Decrypt aesD b64d loads (cipherV1Encrypt aesE b64e dumps x).1
      = some x
    ∧ cipherV2Decrypt gcmD b64d loads (cipherV2Encrypt gcmE b64e dumps x).1
      = some x := by
  obtain ⟨t, ht⟩ := hobj
  constructor
  · unfold cipherV1Encrypt cipherV1Decrypt
    rw [hb64, haes]
    have hn1 : 1 ≤ 16 - (dumps x).length % 16
        ∧ 16 - (dumps x).length % 16 ≤ 16 := by
      have := Nat.mod_lt (dumps x).length (show 0 < 16 by omega)
      omega
    have hcthm := charOfNat_small _ hn1.1 hn1.2
    have hpadchars : ∀ a ∈ List.replicate (16 - (dumps x).length % 16)
        (Char.ofNat (16 - (dumps x).length % 16)),
        a = Char.ofNat (16 - (dumps x).length % 16) :=
      fun a ha => List.eq_of_mem_replicate ha
    have hpadeq : padV1 (dumps x) = (t ++ [braceChar]) ++ List.replicate
        (16 - (dumps x).length % 16)
        (Char.ofNat (16 - (dumps x).length % 16)) := by
      show (dumps x) ++ _ = _
      rw [ht]
    rw [hpadeq, truncateAndLoad_append, ← ht, hload]
    · intro he
      have h0 := congrArg List.length he
      simp only [List.length_replicate, List.length_nil] at h0
      omega
    · intro a ha
      rw [hpadchars a ha]
      exact hcthm.2
    · intro a ha hmem2
      rw [← ht] at hmem2
      have h32 := hctrl _ hmem2
      rw [hpadchars a ha, hcthm.1] at h32
      omega
  · unfold cipherV2Encrypt cipherV2Decrypt
    rw [hb64, hgcm, ht, truncateAndLoad_obj, ← ht, hload]

/-- C2 witness: the round-trip at a concrete input with the library
contracts instantiated (identity block cipher and base64, a trivially
invertible GCM stand-in, the two-character object serializer). -/
theorem cipher_roundtrip_witness :
    cipherV1Decrypt id id c2Loads (cipherV1Encrypt id id c2Dumps 7).1
      = some 7
    ∧ cipherV2Decrypt id id c2Loads (cipherV2Encrypt c2Gcm id c2Dumps 7).1
      = some 7 :=
  cipher_roundtrip id id id id id c2Gcm c2Dumps c2Loads 7
    (fun _ => rfl) (fun _ => rfl) (fun _ => rfl)
    (by decide) ⟨[Char.ofNat 123], by decide⟩ (by decide)

/-! ## C10: the tag sibling field marks the V2 cipher -/

/-- C10: CipherV1.encrypt always returns None as its tag component
while CipherV2.encrypt always returns a non-null, non-empty base64 tag
string (a base64 encoding of the 16-byte GCM digest is never empty);
consequently, for every envelope whose pack payload send encrypts, the
serialized envelope carries the sibling tag field exactly when the
active cipher is V2. -/
theorem tag_field_iff_v2 {α : Type}
    (aesE b64e : List Char → List Char)
    (gcmE : List Char → List Char × List Char)
    (dumps : α → List Char) (x : α)
    (env : Envelope α) (body : α)
    (installed bootstrap : Option CipherKind)
    (hne : ∀ s, s ≠ [] → b64e s ≠ [])
    (hdig : ∀ s, (gcmE s).2 ≠ []) :
    (cipherV1Encrypt aesE b64e dumps x).2 = none
    ∧ (∃ tg, (cipherV2Encrypt gcmE b64e dumps x).2 = some tg ∧ tg ≠ [])
    ∧ (∀ m c, env.pack = some body →
        sendFrame aesE gcmE b64e dumps env installed bootstrap
          = .ok (m, some c) →
        (m.tag.isSome ↔ c = .v2)) := by
  refine ⟨rfl, ⟨b64e (gcmE (dumps x)).2, rfl, hne _ (hdig _)⟩, ?_⟩
  intro m c hpack hsend
  unfold sendFrame at hsend
  rw [hpack] at hsend
  cases hact : sendActiveCipher env.i installed bootstrap with
  | error e =>
    rw [hact] at hsend
    exact absurd hsend (by simp)
  | ok c0 =>
    rw [hact] at hsend
    simp only [Except.ok.injEq, Prod.mk.injEq, Option.some.injEq] at hsend
    obtain ⟨hm, hc⟩ := hsend
    subst hc
    rw [← hm]
    cases c0 with
    | v1 => simp [cipherEncrypt, cipherV1Encrypt, pyTruthyStr]
    | v2 =>
      have hnet : b64e (gcmE (dumps body)).2 ≠ [] := hne _ (hdig _)
      cases hl : b64e (gcmE (dumps body)).2 with
      | nil => exact absurd hl hnet
      | cons a as => simp [cipherEncrypt, cipherV2Encrypt, pyTruthyStr, hl]

/-- C10 witness: with the GCM stand-in producing a one-byte digest, V1
yields no tag, and the concrete send of a session envelope under the
installed V2 cipher carries the tag field. -/
theorem tag_field_iff_v2_witness :
    (cipherV1Encrypt id id (fun _ : Nat => []) 0).2 = none
    ∧ (({ packCt := some [], tag := some ['g'] } : SentMessage).tag.isSome
        ↔ CipherKind.v2 = CipherKind.v2) := by
  have h := tag_field_iff_v2 id id c10Gcm (fun _ : Nat => []) 0 c10Env 5
    (some .v2) none (fun _ hs => hs) (fun _ => List.cons_ne_nil _ _)
  exact ⟨h.1, h.2.2 { packCt := some [], tag := some ['g'] } .v2 rfl rfl⟩
